import Mathlib

/-!
Verification of the two command-line tools of this repository against their
specification: `scripts/check_gemini_key.py` (the Key Validator) and
`scripts/gemini_generate.py` (the Prompt Runner).  The Python code is shallowly
embedded: Python values that the scripts inspect dynamically are modelled by
the inductive type `PyVal`, strings by `List Char`, the observable behaviour of
a run (printed lines, network calls, exit code, or an uncaught exception) by
explicit trace types.  The single HTTP response consumed per run is an input of
the run function, as is the optional-SDK environment of the Prompt Runner.
-/

namespace Gemini

/-- Model of the Python values the scripts pattern-match on: None, bools,
ints, strings, lists and dicts (a dict is an association list whose keys are
distinct; lookups take the first match, which coincides with Python because a
Python dict cannot hold a duplicate key). -/
inductive PyVal where
  | pnone
  | pbool (b : Bool)
  | pint (n : Int)
  | pstr (s : List Char)
  | plist (xs : List PyVal)
  | pdict (kvs : List (List Char × PyVal))

/-- Python truthiness: None, False, 0, the empty string, the empty list and the
empty dict are falsy, everything else is truthy. -/
def PyVal.truthy : PyVal → Bool
  | .pnone => false
  | .pbool b => b
  | .pint n => n != 0
  | .pstr s => !s.isEmpty
  | .plist xs => !xs.isEmpty
  | .pdict kvs => !kvs.isEmpty

/-- Python `a or b`: the first operand when it is truthy, otherwise the second
operand as-is (even when the second is falsy). -/
def pyOr (a b : PyVal) : PyVal := if a.truthy then a else b

/-- Python `d.get(k)` on a dict: the value bound to `k`, or None when the key
is absent. -/
def dictGet (kvs : List (List Char × PyVal)) (k : List Char) : PyVal :=
  match kvs.find? (fun p => p.1 == k) with
  | some p => p.2
  | none => .pnone

mutual

/-- Python `repr` of a modelled value, used by `str` on non-string values.
Escaping of special characters inside a nested string repr is not modelled
(no claim inspects such output). -/
def pyRepr : PyVal → List Char
  | .pnone => ("None").data
  | .pbool b => if b then ("True").data else ("False").data
  | .pint n => (toString n).data
  | .pstr s => '\x27' :: s ++ ['\x27']
  | .plist xs => '[' :: pyReprList xs ++ [']']
  | .pdict kvs => '\x7b' :: pyReprKvs kvs ++ ['\x7d']

/-- Comma-separated reprs of the elements of a list. -/
def pyReprList : List PyVal → List Char
  | [] => []
  | [x] => pyRepr x
  | x :: y :: xs => pyRepr x ++ (", ").data ++ pyReprList (y :: xs)

/-- Comma-separated `key: value` reprs of the entries of a dict (the key, a
string, is rendered with its quotes inline). -/
def pyReprKvs : List (List Char × PyVal) → List Char
  | [] => []
  | [(k, v)] => '\x27' :: k ++ ['\x27'] ++ (": ").data ++ pyRepr v
  | (k, v) :: p :: xs =>
      '\x27' :: k ++ ['\x27'] ++ (": ").data ++ pyRepr v ++ (", ").data
        ++ pyReprKvs (p :: xs)

end

/-- Python `str()`: a string is returned unchanged, any other value is
rendered by `repr`. -/
def pyStr : PyVal → List Char
  | .pstr s => s
  | v => pyRepr v

/-- Python `s.startswith(p)` for strings. -/
def pyStartsWith (s p : List Char) : Bool := s.take p.length == p

/-- The helper `short` of check_gemini_key.py: a string of at most `len`
characters is returned unchanged; a longer one is cut to its first `len`
characters and a three-character marker is appended. -/
def short (s : List Char) (len : Nat) : List Char :=
  if s.length ≤ len then s else s.take len ++ ("...").data

/-- Python whitespace characters (the set stripped by `str.strip()` and split
on by `str.split()`). -/
def pyIsSpace (c : Char) : Bool :=
  c == ' ' || c == '\t' || c == '\n' || c == '\r' || c == '\x0b' || c == '\x0c'

/-- Split a text after each newline, keeping the newline at the end of each
piece (Python `splitlines(keepends=True)` restricted to the newline character;
the rarer line boundaries Python also honours do not occur in this model). -/
def splitAfterNl : List Char → List (List Char)
  | [] => []
  | c :: cs =>
    match splitAfterNl cs with
    | [] => [[c]]
    | l :: ls => if c == '\n' then [c] :: l :: ls else (c :: l) :: ls

/-- `textwrap.indent(text, "  ")`: the two-space prefix is added to every line
that contains a non-whitespace character. -/
def indentTwo (t : List Char) : List Char :=
  ((splitAfterNl t).map (fun l => if l.all pyIsSpace then l else ' ' :: ' ' :: l)).flatten

/-! ### Key Validator (check_gemini_key.py) -/

/-- One observable step of the Key Validator: a printed line, or the single
network GET. -/
inductive Event where
  | print (line : List Char)
  | httpGet (url : List Char)
deriving DecidableEq

/-- The outcome of the one `requests.get` call: a raised `RequestException`
(anything from DNS failure to timeout), or a response with an HTTP status
code, the parse of its body (`none` models `resp.json()` raising
`ValueError`) and its raw text. -/
inductive FetchOutcome where
  | exc (msg : List Char)
  | resp (status : Nat) (json : Option PyVal) (text : List Char)

/-- The result of a run: a normal return with its trace and exit code, or an
uncaught exception escaping `main` (CPython then prints a traceback and the
process exits with a status outside the classified codes). -/
inductive RunResult where
  | exit (trace : List Event) (code : Nat)
  | crash (trace : List Event)

/-- The events of a run, whether it returned or crashed. -/
def traceOf : RunResult → List Event
  | .exit t _ => t
  | .crash t => t

/-- The classified exit code of a run; `none` for a crash. -/
def exitCodeOf : RunResult → Option Nat
  | .exit _ c => some c
  | .crash _ => none

def checkMissingLine : List Char :=
  ("GEMINI_API_KEY not found in environment or .env file.").data

def foundLine : List Char :=
  ("Found GEMINI_API_KEY (hidden). Performing basic checks...").data

def googleHeurLine : List Char :=
  ("- Looks like a Google API key (starts with 'AIza').").data

def openaiHeurLine : List Char :=
  ("- Looks like an OpenAI-style secret key (starts with 'sk-').").data

def unknownHeurLine : List Char :=
  ("- Key format unknown. Will still attempt a validation request.").data

/-- The format heuristic of lines 38-43: the printed line chosen from the two
recognized key shapes, with a fallback line for every other shape. -/
def heuristicLine (key : List Char) : List Char :=
  if pyStartsWith key (("AIza").data) then googleHeurLine
  else if pyStartsWith key (("sk-").data) then openaiHeurLine
  else unknownHeurLine

def endpointBase : List Char :=
  ("https://generativelanguage.googleapis.com/v1beta2/models?key=").data

/-- The models-list endpoint URL with the credential as query parameter. -/
def endpointOf (key : List Char) : List Char := endpointBase ++ key

def requestHead : List Char := ("- Requesting models endpoint: ").data

/-- The printed line that shows the request URL, credential included. -/
def requestingLine (key : List Char) : List Char := requestHead ++ endpointOf key

def netErrorHead : List Char :=
  ("Network error while attempting to validate the key: ").data

def statusHead : List Char := ("- HTTP status: ").data

def notJsonLine : List Char :=
  ("- Received 200 but response is not valid JSON. Key may be partially valid.").data

def validHead : List Char := ("- Key appears valid. ").data

def validTail : List Char := (" model(s) returned:").data

/-- The success-with-list header naming the number of models returned. -/
def validCountLine (n : Nat) : List Char := validHead ++ (toString n).data ++ validTail

def respHeaderLine : List Char :=
  ("- Key appears valid (200). Response:").data

def unauthorizedLine : List Char :=
  ("- Unauthorized or forbidden. The API key is invalid or lacks permissions.").data

def otherHeaderLine : List Char :=
  ("- Received unexpected status. Response body (truncated):").data

/-- Line 68: `data.get("models") or data.get("model") or data.get("availableModels")`,
the priority-ordered probe of field names chaining on truthiness. -/
def modelsLookup (kvs : List (List Char × PyVal)) : PyVal :=
  pyOr (dictGet kvs (("models").data))
    (pyOr (dictGet kvs (("model").data)) (dictGet kvs (("availableModels").data)))

/-- Line 73-76: the display name chosen for one model entry — for a dict,
`m.get("name") or m.get("model") or str(m)` (chaining on truthiness); for any
other value, `str(m)`. -/
def modelNameVal (m : PyVal) : PyVal :=
  match m with
  | .pdict kvs =>
      pyOr (dictGet kvs (("name").data))
        (pyOr (dictGet kvs (("model").data)) (.pstr (pyStr m)))
  | _ => .pstr (pyStr m)

/-- `short(name, 200)` applied to a dynamically typed name value, as Python
executes it: on a string it truncates; on a list or dict, `len` and slicing
work, so a value of at most `len` entries is returned unchanged, while a
longer list or dict raises (`list + str`, resp. slicing a dict); on any other
value `len()` itself raises a TypeError. -/
def shortPy (s : PyVal) (len : Nat) : Except Unit PyVal :=
  match s with
  | .pstr t => .ok (.pstr (short t len))
  | .plist xs => if xs.length ≤ len then .ok (.plist xs) else .error ()
  | .pdict kvs => if kvs.length ≤ len then .ok (.pdict kvs) else .error ()
  | _ => .error ()

/-- The display loop of lines 71-77 over `models[:10]`: the printed entry
lines in order, and whether the loop raised (an entry whose truncation raises
stops the loop after the lines already printed). -/
def entryLinesLoop : List PyVal → List (List Char) × Bool
  | [] => ([], false)
  | m :: ms =>
    match shortPy (modelNameVal m) 200 with
    | .error _ => ([], true)
    | .ok v =>
      let r := entryLinesLoop ms
      ((("  - ").data ++ pyStr v) :: r.1, r.2)

/-- The events printed before (and including) the network GET. -/
def preTrace (key : List Char) : List Event :=
  [.print foundLine, .print (heuristicLine key), .print (requestingLine key),
   .httpGet (endpointOf key)]

/-- The `main` of check_gemini_key.py, as a function of the credential read
from the environment (`none` models an unset variable) and of the outcome of
the single GET.  A 200 body that parses to a non-dict value makes
`data.get(...)` raise an uncaught AttributeError, modelled by `.crash`; so
does a model entry whose display name makes `short` raise. -/
def runCheck (apiKey : Option (List Char)) (fetch : FetchOutcome) : RunResult :=
  match apiKey with
  | none => .exit [.print checkMissingLine] 2
  | some key =>
    if key.isEmpty then .exit [.print checkMissingLine] 2 else
    match fetch with
    | .exc msg => .exit (preTrace key ++ [.print (netErrorHead ++ msg)]) 3
    | .resp status json text =>
      let pre2 := preTrace key ++ [.print (statusHead ++ (toString status).data)]
      if status = 200 then
        match json with
        | none => .exit (pre2 ++ [.print notJsonLine]) 0
        | some (.pdict kvs) =>
          match modelsLookup kvs with
          | .plist ms =>
            let r := entryLinesLoop (ms.take 10)
            let t := pre2 ++ Event.print (validCountLine ms.length) :: r.1.map Event.print
            if r.2 then .crash t else .exit t 0
          | _ =>
            .exit (pre2 ++ [.print respHeaderLine, .print (indentTwo (short text 400))]) 0
        | some _ => .crash pre2
      else if status = 401 ∨ status = 403 then
        .exit (pre2 ++ [.print unauthorizedLine, .print (indentTwo (short text 400))]) 4
      else
        .exit (pre2 ++ [.print otherHeaderLine, .print (indentTwo (short text 400))]) 5

/-! ### Prompt Runner (gemini_generate.py) -/

/-- Python `str.split()` with no argument: split on runs of whitespace, with
no empty tokens. -/
def pySplitWs (s : List Char) : List (List Char) :=
  (s.foldr (fun c acc =>
    if pyIsSpace c then [] :: acc
    else
      match acc with
      | [] => [[c]]
      | w :: ws => (c :: w) :: ws) []).filter (fun w => !w.isEmpty)

/-- Join a list of words with the given separator. -/
def sepJoin (sep : List Char) : List (List Char) → List Char
  | [] => []
  | [w] => w
  | w :: x :: ws => w ++ sep ++ sepJoin sep (x :: ws)

/-- The words kept by textwrap.shorten when the collapsed text does not fit:
a greatest prefix of the word list such that the words joined by single
spaces stay within `budget`. -/
def keepWords : List (List Char) → Nat → List (List Char)
  | [], _ => []
  | w :: ws, budget =>
    if w.length ≤ budget then w :: keepWords ws (budget - w.length - 1) else []

/-- `textwrap.shorten(text, width)`: whitespace runs are collapsed to single
spaces; if the collapsed text fits in `width` it is returned, otherwise words
are dropped from the end so that the kept words plus the placeholder
fit, and the placeholder is appended.  The corner where not even one
word fits (Python then breaks the first word) is modelled by returning the
bare placeholder. -/
def textwrapShorten (s : List Char) (width : Nat) : List Char :=
  if (sepJoin [' '] (pySplitWs s)).length ≤ width then sepJoin [' '] (pySplitWs s)
  else if (keepWords (pySplitWs s) (width - 6)).isEmpty then ("[...]").data
  else sepJoin [' '] (keepWords (pySplitWs s) (width - 6)) ++ (" [...]").data

/-- The return value of the SDK generate-content call, as the script sees it:
either an object carrying an attribute list (looked up by `getattr`), or a
plain value such as None or a string, which carries no `text` or `response`
attribute. -/
inductive RespObj where
  | plain (v : PyVal)
  | obj (attrs : List (List Char × PyVal))

/-- `getattr(r, name, default)` without its default: `some` the attribute
value when present, `none` otherwise. -/
def rgetattr (r : RespObj) (name : List Char) : Option PyVal :=
  match r with
  | .obj attrs => (attrs.find? (fun p => p.1 == name)).map (fun p => p.2)
  | .plain _ => none

/-- What the Prompt Runner ends up holding as its result: a plain Python
value, or the raw response object passed through unextracted. -/
inductive GenResult where
  | pv (v : PyVal)
  | rawObj (attrs : List (List Char × PyVal))

/-- The raw return value itself, as a result. -/
def rawResult : RespObj → GenResult
  | .plain v => .pv v
  | .obj attrs => .rawObj attrs

/-- Line 37: `getattr(resp, "text", None) or getattr(resp, "response", resp)`.
The first operand is the `text` attribute or None; when it is falsy the whole
expression is the second operand as-is: the `response` attribute when that
attribute is present (whatever its value), else the raw response. -/
def extractResp (r : RespObj) : GenResult :=
  let t := (rgetattr r (("text").data)).getD .pnone
  if t.truthy then .pv t
  else
    match rgetattr r (("response").data) with
    | some w => .pv w
    | none => rawResult r

/-- The state of the optional `google-genai` dependency for one run, covering
the branches of `try_genai_library`: the import fails; the client pattern is
available and its call returns a response; the static `Text.generate` pattern
is available and returns a value; the library is importable but exposes
neither pattern; or probing/calling raises an exception with a message. -/
inductive SdkEnv where
  | notInstalled
  | clientShape (resp : RespObj)
  | textShape (resp : PyVal)
  | noShape
  | raises (msg : List Char)

def sdkNotAvailMsg : List Char := ("google-genai library not available").data

def sdkNoShapeMsg : List Char :=
  ("google-genai installed but API surface not recognized").data

def sdkFailHead : List Char := ("google-genai call failed: ").data

/-- `try_genai_library`: the `(result, error)` pair.  Every failure returns
None (modelled as `.pv .pnone`) with a reason string; each recognized call
shape returns its result (the client shape after attribute extraction) with no
reason. -/
def tryGenaiLibrary (sdk : SdkEnv) : GenResult × Option (List Char) :=
  match sdk with
  | .notInstalled => (.pv .pnone, some sdkNotAvailMsg)
  | .clientShape resp => (extractResp resp, none)
  | .textShape resp => (.pv resp, none)
  | .noShape => (.pv .pnone, some sdkNoShapeMsg)
  | .raises msg => (.pv .pnone, some (sdkFailHead ++ msg))

/-- Python `result is None` on a Prompt Runner result. -/
def GenResult.isNoneV : GenResult → Bool
  | .pv .pnone => true
  | _ => false

/-- The outcome of the fallback `requests.post`: the call raises, or a
response arrives with the parse of its body (`none` models `resp.json()`
raising, in which case the raw text is used) and its raw text. -/
inductive PostOutcome where
  | raises (msg : List Char)
  | resp (json : Option PyVal) (text : List Char)

/-- `fallback_rest`'s returned value on a received response: the parsed JSON
body if parsing succeeds, else the raw text as a string. -/
def fallbackValue : PostOutcome → PyVal
  | .raises _ => .pnone
  | .resp (some v) _ => v
  | .resp none text => .pstr text

/-- One observable step of the Prompt Runner: a printed line, the single call
into `try_genai_library`, or the fallback POST. -/
inductive GEvent where
  | print (line : List Char)
  | sdkAttempt
  | httpPost (url : List Char)
deriving DecidableEq

/-- The trace and exit code of a Prompt Runner run. -/
structure GRun where
  trace : List GEvent
  code : Nat

def genMissingLine : List Char :=
  ("GEMINI_API_KEY not found in environment or .env. Set it and retry.").data

def usingModelHead : List Char := ("Using model: ").data

def sdkResultHeader : List Char := ("--- Result (google-genai library) ---").data

def notUsedHead : List Char := ("google-genai not used: ").data

def notUsedTail : List Char := (". Falling back to REST endpoint...").data

def restResultHeader : List Char := ("--- Result (REST fallback) ---").data

def restFailHead : List Char := ("REST request failed: ").data

def postBase : List Char :=
  ("https://generativelanguage.googleapis.com/v1beta2/models/").data

def postMid : List Char := (":generateText?key=").data

/-- The generateText endpoint URL for a model, credential as query
parameter. -/
def postUrl (model key : List Char) : List Char := postBase ++ model ++ postMid ++ key

/-- Python `str()` of a raw response object: CPython prints the class and a
memory address; the address is not a function of the modelled state, so the
rendering is a fixed placeholder (no claim inspects it). -/
def rawObjStr : List Char := ("<google-genai response object>").data

/-- `str(result)` on the Prompt Runner's result value. -/
def strOfResult : GenResult → List Char
  | .pv v => pyStr v
  | .rawObj _ => rawObjStr

/-- `str(err)` where err is a string or None. -/
def optStr : Option (List Char) → List Char
  | none => ("None").data
  | some s => s

/-- The `main` of gemini_generate.py, as a function of the credential, the
parsed arguments, the SDK environment and the outcome of the fallback POST
(consulted only when the run reaches it).  The prompt enters only the POST
body, which no claim inspects. -/
def runGenerate (apiKey : Option (List Char)) (model prompt : List Char)
    (sdk : SdkEnv) (post : PostOutcome) : GRun :=
  match apiKey with
  | none => ⟨[.print genMissingLine], 2⟩
  | some key =>
    if key.isEmpty then ⟨[.print genMissingLine], 2⟩ else
    let pre : List GEvent := [.print (usingModelHead ++ model), .sdkAttempt]
    let r := tryGenaiLibrary sdk
    if r.2.isNone && !(r.1.isNoneV) then
      ⟨pre ++ [.print sdkResultHeader, .print (textwrapShorten (strOfResult r.1) 4000)], 0⟩
    else
      let pre2 := pre ++
        [.print (notUsedHead ++ optStr r.2 ++ notUsedTail), .httpPost (postUrl model key)]
      match post with
      | .raises msg => ⟨pre2 ++ [.print (restFailHead ++ msg)], 3⟩
      | .resp _ _ =>
        ⟨pre2 ++ [.print restResultHeader,
          .print (textwrapShorten (pyStr (fallbackValue post)) 4000)], 0⟩

/-! ### Derived observations used by the theorems -/

/-- Whether the display loop over the selected models list raises (a model
entry whose chosen name value makes `short` raise a TypeError). -/
def entriesCrashOf (kvs : List (List Char × PyVal)) : Bool :=
  match modelsLookup kvs with
  | .plist ms => (entryLinesLoop (ms.take 10)).2
  | _ => false

/-- The exit code of the Key Validator with a credential present, as a
function of the single fetch outcome (`none` marks the runs that end in an
uncaught exception). -/
def exitSpec : FetchOutcome → Option Nat
  | .exc _ => some 3
  | .resp status json _ =>
    if status = 200 then
      match json with
      | none => some 0
      | some (.pdict kvs) => if entriesCrashOf kvs then none else some 0
      | some _ => none
    else if status = 401 ∨ status = 403 then some 4
    else some 5

/-- Whether a Key Validator event is a printed model entry line (the loop
prints each entry behind the four-character indent marker). -/
def isEntryLine : Event → Bool
  | .print l => pyStartsWith l (("  - ").data)
  | _ => false

/-- The number of model entry lines a run printed. -/
def entryLineCount (r : RunResult) : Nat := (traceOf r).countP isEntryLine

/-- Whether a Key Validator event is the network GET. -/
def isGet : Event → Bool
  | .httpGet _ => true
  | _ => false

/-- Whether a Prompt Runner event is the fallback POST. -/
def isPost : GEvent → Bool
  | .httpPost _ => true
  | _ => false

/-- Whether a Prompt Runner event is the call into `try_genai_library`. -/
def isAttempt : GEvent → Bool
  | .sdkAttempt => true
  | _ => false

/-- The SDK-environment states the claims call SDK-path failures: library not
importable, library present but neither call shape recognized, or the call
raising. -/
def isSdkFailure : SdkEnv → Bool
  | .notInstalled => true
  | .noShape => true
  | .raises _ => true
  | _ => false

/-- The lines printed before any network activity, in print order. -/
def preNetworkPrints (key : List Char) : List (List Char) :=
  [foundLine, heuristicLine key, requestingLine key]

/-- Whether one model entry can be displayed without raising. -/
def entryLineOk (m : PyVal) : Bool :=
  match shortPy (modelNameVal m) 200 with
  | .ok _ => true
  | .error _ => false

/-- The truncated name value displayed for one model entry (junk on an entry
whose truncation raises). -/
def entryVal (m : PyVal) : PyVal :=
  match shortPy (modelNameVal m) 200 with
  | .ok v => v
  | .error _ => .pnone

/-! ### Helper lemmas -/

theorem neNil_isEmpty_false (l : List Char) (h : l ≠ []) : l.isEmpty = false :=
  List.isEmpty_eq_false.mpr h

theorem append_ne_of_take_ne (p x q : List Char) (n : Nat) (hn : n ≤ p.length)
    (h : p.take n ≠ q.take n) : p ++ x ≠ q := by
  intro he
  exact h (by rw [← List.take_append_of_le_length hn, he])

theorem runCheck_exitSpec (key : List Char) (hk : key ≠ []) (fetch : FetchOutcome) :
    exitCodeOf (runCheck (some key) fetch) = exitSpec fetch := by
  have he : key.isEmpty = false := neNil_isEmpty_false key hk
  cases fetch with
  | exc msg => simp [runCheck, he, exitSpec, exitCodeOf]
  | resp status json text =>
    by_cases h200 : status = 200
    · subst h200
      cases json with
      | none => simp [runCheck, he, exitSpec, exitCodeOf]
      | some data =>
        cases data with
        | pdict kvs =>
          cases hml : modelsLookup kvs with
          | plist ms =>
            by_cases hc : (entryLinesLoop (ms.take 10)).2 = true
            · simp [runCheck, he, exitSpec, entriesCrashOf, hml, hc, exitCodeOf]
            · simp [runCheck, he, exitSpec, entriesCrashOf, hml,
                Bool.eq_false_iff.mpr hc, exitCodeOf]
          | pnone => simp [runCheck, he, exitSpec, entriesCrashOf, hml, exitCodeOf]
          | pbool b => simp [runCheck, he, exitSpec, entriesCrashOf, hml, exitCodeOf]
          | pint n => simp [runCheck, he, exitSpec, entriesCrashOf, hml, exitCodeOf]
          | pstr s => simp [runCheck, he, exitSpec, entriesCrashOf, hml, exitCodeOf]
          | pdict kvs2 => simp [runCheck, he, exitSpec, entriesCrashOf, hml, exitCodeOf]
        | pnone => simp [runCheck, he, exitSpec, exitCodeOf]
        | pbool b => simp [runCheck, he, exitSpec, exitCodeOf]
        | pint n => simp [runCheck, he, exitSpec, exitCodeOf]
        | pstr s => simp [runCheck, he, exitSpec, exitCodeOf]
        | plist xs => simp [runCheck, he, exitSpec, exitCodeOf]
    · by_cases h4 : status = 401 ∨ status = 403
      · simp [runCheck, he, exitSpec, exitCodeOf, h200, h4]
      · simp [runCheck, he, exitSpec, exitCodeOf, h200, h4]

theorem runCheck_trace_pre (key : List Char) (hk : key ≠ []) (fetch : FetchOutcome) :
    ∃ t, traceOf (runCheck (some key) fetch) = preTrace key ++ t := by
  have he : key.isEmpty = false := neNil_isEmpty_false key hk
  cases fetch with
  | exc msg =>
    exact ⟨[.print (netErrorHead ++ msg)], by simp [runCheck, he, traceOf]⟩
  | resp status json text =>
    by_cases h200 : status = 200
    · subst h200
      cases json with
      | none =>
        exact ⟨[.print (statusHead ++ (toString 200).data), .print notJsonLine],
          by simp [runCheck, he, traceOf]⟩
      | some data =>
        cases data with
        | pdict kvs =>
          cases hml : modelsLookup kvs with
          | plist ms =>
            refine ⟨.print (statusHead ++ (toString 200).data) ::
              .print (validCountLine ms.length) ::
                (entryLinesLoop (ms.take 10)).1.map .print, ?_⟩
            by_cases hc : (entryLinesLoop (ms.take 10)).2 = true
            · simp [runCheck, he, traceOf, hml, hc]
            · simp [runCheck, he, traceOf, hml, Bool.eq_false_iff.mpr hc]
          | pnone =>
            exact ⟨[.print (statusHead ++ (toString 200).data), .print respHeaderLine,
              .print (indentTwo (short text 400))], by simp [runCheck, he, traceOf, hml]⟩
          | pbool b =>
            exact ⟨[.print (statusHead ++ (toString 200).data), .print respHeaderLine,
              .print (indentTwo (short text 400))], by simp [runCheck, he, traceOf, hml]⟩
          | pint n =>
            exact ⟨[.print (statusHead ++ (toString 200).data), .print respHeaderLine,
              .print (indentTwo (short text 400))], by simp [runCheck, he, traceOf, hml]⟩
          | pstr s =>
            exact ⟨[.print (statusHead ++ (toString 200).data), .print respHeaderLine,
              .print (indentTwo (short text 400))], by simp [runCheck, he, traceOf, hml]⟩
          | pdict kvs2 =>
            exact ⟨[.print (statusHead ++ (toString 200).data), .print respHeaderLine,
              .print (indentTwo (short text 400))], by simp [runCheck, he, traceOf, hml]⟩
        | pnone =>
          exact ⟨[.print (statusHead ++ (toString 200).data)], by simp [runCheck, he, traceOf]⟩
        | pbool b =>
          exact ⟨[.print (statusHead ++ (toString 200).data)], by simp [runCheck, he, traceOf]⟩
        | pint n =>
          exact ⟨[.print (statusHead ++ (toString 200).data)], by simp [runCheck, he, traceOf]⟩
        | pstr s =>
          exact ⟨[.print (statusHead ++ (toString 200).data)], by simp [runCheck, he, traceOf]⟩
        | plist xs =>
          exact ⟨[.print (statusHead ++ (toString 200).data)], by simp [runCheck, he, traceOf]⟩
    · by_cases h4 : status = 401 ∨ status = 403
      · exact ⟨[.print (statusHead ++ (toString status).data), .print unauthorizedLine,
          .print (indentTwo (short text 400))], by simp [runCheck, he, traceOf, h200, h4]⟩
      · exact ⟨[.print (statusHead ++ (toString status).data), .print otherHeaderLine,
          .print (indentTwo (short text 400))], by simp [runCheck, he, traceOf, h200, h4]⟩

theorem entryLinesLoop_ok (l : List PyVal) (h : ∀ m ∈ l, entryLineOk m = true) :
    entryLinesLoop l = (l.map (fun m => (("  - ").data ++ pyStr (entryVal m))), false) := by
  induction l with
  | nil => rfl
  | cons m ms ih =>
    have hm := h m (List.mem_cons_self m ms)
    unfold entryLineOk at hm
    unfold entryLinesLoop
    cases hs : shortPy (modelNameVal m) 200 with
    | error e => rw [hs] at hm; exact absurd hm (by simp)
    | ok v =>
      rw [hs] at hm
      have ht := ih (fun x hx => h x (List.mem_cons_of_mem m hx))
      simp [ht, entryVal, hs]

theorem pyStartsWith_append (p x : List Char) : pyStartsWith (p ++ x) p = true := by
  unfold pyStartsWith
  rw [List.take_left]
  exact beq_self_eq_true p

theorem isEntryLine_entry (x : List Char) :
    isEntryLine (.print ((("  - ").data ++ x))) = true := by
  unfold isEntryLine
  exact pyStartsWith_append (("  - ").data) x

theorem isEntryLine_head_append (p x : List Char) (h4 : 4 ≤ p.length)
    (h : (p.take 4 == (("  - ").data)) = false) :
    isEntryLine (.print (p ++ x)) = false := by
  simp only [isEntryLine, pyStartsWith]
  rw [show ((("  - ").data)).length = 4 from rfl, List.take_append_of_le_length h4, h]

theorem isEntryLine_heuristic (key : List Char) :
    isEntryLine (.print (heuristicLine key)) = false := by
  unfold heuristicLine
  by_cases h1 : pyStartsWith key ((("AIza").data)) = true
  · simp only [h1, if_true]; decide
  · by_cases h2 : pyStartsWith key ((("sk-").data)) = true
    · simp only [Bool.eq_false_iff.mpr h1, h2, if_false, if_true]; decide
    · simp only [Bool.eq_false_iff.mpr h1, Bool.eq_false_iff.mpr h2, if_false]; decide

theorem preTrace_no_entry (key : List Char) :
    (preTrace key).countP isEntryLine = 0 := by
  unfold preTrace
  simp only [List.countP_cons, List.countP_nil]
  rw [isEntryLine_heuristic key]
  rw [show isEntryLine (.print foundLine) = false from by decide]
  rw [show isEntryLine (.print (requestingLine key)) = false from
    isEntryLine_head_append requestHead (endpointOf key) (by decide) (by decide)]
  rfl

theorem runCheck_200_list (key : List Char) (hk : key ≠ [])
    (kvs : List (List Char × PyVal)) (ms : List PyVal) (text : List Char)
    (hml : modelsLookup kvs = .plist ms) :
    runCheck (some key) (.resp 200 (some (.pdict kvs)) text) =
      (if (entryLinesLoop (ms.take 10)).2 then
        RunResult.crash (preTrace key ++
          Event.print (statusHead ++ (toString 200).data) ::
          Event.print (validCountLine ms.length) ::
            (entryLinesLoop (ms.take 10)).1.map Event.print)
      else
        RunResult.exit (preTrace key ++
          Event.print (statusHead ++ (toString 200).data) ::
          Event.print (validCountLine ms.length) ::
            (entryLinesLoop (ms.take 10)).1.map Event.print) 0) := by
  have he : key.isEmpty = false := neNil_isEmpty_false key hk
  by_cases hc : (entryLinesLoop (ms.take 10)).2 = true
  · simp [runCheck, he, hml, hc]
  · simp [runCheck, he, hml, Bool.eq_false_iff.mpr hc]

theorem runCheck_200_nonlist (key : List Char) (hk : key ≠ [])
    (kvs : List (List Char × PyVal)) (text : List Char)
    (hml : ∀ ms, modelsLookup kvs ≠ .plist ms) :
    runCheck (some key) (.resp 200 (some (.pdict kvs)) text) =
      .exit (preTrace key ++ [.print (statusHead ++ (toString 200).data),
        .print respHeaderLine, .print (indentTwo (short text 400))]) 0 := by
  have he : key.isEmpty = false := neNil_isEmpty_false key hk
  cases hv : modelsLookup kvs with
  | plist ms => exact absurd hv (hml ms)
  | pnone => simp [runCheck, he, hv]
  | pbool b => simp [runCheck, he, hv]
  | pint n => simp [runCheck, he, hv]
  | pstr s => simp [runCheck, he, hv]
  | pdict kvs2 => simp [runCheck, he, hv]

theorem pySplitWs_ne_nil (s : List Char) : ∀ w ∈ pySplitWs s, w ≠ [] := by
  intro w hw
  have h := List.of_mem_filter hw
  simpa using h

theorem sepJoin_keepWords_le (ws : List (List Char)) (b : Nat)
    (h : ∀ w ∈ ws, w ≠ []) : (sepJoin [' '] (keepWords ws b)).length ≤ b := by
  induction ws generalizing b with
  | nil => simp [keepWords, sepJoin]
  | cons w ws ih =>
    unfold keepWords
    by_cases hw : w.length ≤ b
    · rw [if_pos hw]
      cases hkept : keepWords ws (b - w.length - 1) with
      | nil => simpa [sepJoin, hkept] using hw
      | cons v vs =>
        have hvp : v.length ≤ b - w.length - 1 ∧ v ≠ [] := by
          cases ws with
          | nil => simp [keepWords] at hkept
          | cons u us =>
            unfold keepWords at hkept
            by_cases hu : u.length ≤ b - w.length - 1
            · rw [if_pos hu] at hkept
              injection hkept with h1 h2
              exact ⟨h1 ▸ hu, h1 ▸ h u (List.mem_cons_of_mem w (List.mem_cons_self u us))⟩
            · rw [if_neg hu] at hkept; exact absurd hkept (by simp)
        have hb1 : 1 ≤ b - w.length - 1 := by
          rcases hvp with ⟨hvl, hvn⟩
          cases v with
          | nil => exact absurd rfl hvn
          | cons a as => exact le_trans (by simp) hvl
        have htail := ih (b - w.length - 1) (fun x hx => h x (List.mem_cons_of_mem w hx))
        rw [hkept] at htail
        show (w ++ [' '] ++ sepJoin [' '] (v :: vs)).length ≤ b
        simp only [List.length_append, List.length_cons, List.length_nil]
        omega
    · rw [if_neg hw]; simp [sepJoin]

theorem textwrapShorten_le_4000 (s : List Char) : (textwrapShorten s 4000).length ≤ 4000 := by
  unfold textwrapShorten
  by_cases hfit : (sepJoin [' '] (pySplitWs s)).length ≤ 4000
  · rw [if_pos hfit]; exact hfit
  · rw [if_neg hfit]
    by_cases hkept : (keepWords (pySplitWs s) (4000 - 6)).isEmpty = true
    · rw [if_pos hkept]; decide
    · rw [if_neg hkept]
      have hb := sepJoin_keepWords_le (pySplitWs s) (4000 - 6) (pySplitWs_ne_nil s)
      rw [List.length_append]
      have h6 : ((" [...]").data).length = 6 := by decide
      omega

/-! ### The claims -/

set_option maxRecDepth 4000 in
/-- C1, counterexample: the claim says a truncated display string never
exceeds its bound, but `short` on a 401-character string with bound 400
returns 403 characters (the 400-character cut plus the three-character
marker), exceeding the bound. -/
theorem short_exceeds_bound :
    400 < (short (List.replicate 401 'a') 400).length ∧
    (short (List.replicate 401 'a') 400).length = 403 := by decide

/-- C1, amended: the `short` helper (used at bounds 400 for response bodies
and 200 for model names) returns a string of at most the bound unchanged and
cuts a longer string to exactly the bound, appending the three-character
marker, so its output length never exceeds the bound plus three (and equals
it on truncation); the Prompt Runner display truncation (`textwrap.shorten`
at 4000) does stay within its bound. -/
theorem short_truncation_spec (s : List Char) (len : Nat) (t : List Char) :
    (s.length ≤ len → short s len = s) ∧
    (len < s.length → short s len = s.take len ++ ("...").data) ∧
    (short s len).length ≤ len + 3 ∧
    (len < s.length → (short s len).length = len + 3) ∧
    (textwrapShorten t 4000).length ≤ 4000 := by
  refine ⟨?_, ?_, ?_, ?_, textwrapShorten_le_4000 t⟩
  · intro h; simp [short, h]
  · intro h; simp [short, Nat.not_le.mpr h]
  · by_cases h : s.length ≤ len
    · rw [short, if_pos h]; omega
    · rw [short, if_neg h]
      rw [List.length_append, List.length_take]
      have hm : min len s.length = len := Nat.min_eq_left (Nat.le_of_not_le h)
      simp [hm]
  · intro h
    rw [short, if_neg (Nat.not_le.mpr h)]
    rw [List.length_append, List.length_take]
    have hm : min len s.length = len := Nat.min_eq_left (Nat.le_of_lt h)
    simp [hm]

/-- C1, witness: the amended truncation facts at concrete inputs — a
two-character string within bound 5 passes unchanged, and a 401-character
string at bound 400 is cut to 400 plus the marker. -/
theorem short_truncation_spec_witness :
    short (("ab").data) 5 = ("ab").data ∧
    short (List.replicate 401 'a') 400 = (List.replicate 401 'a').take 400 ++ ("...").data :=
  ⟨(short_truncation_spec (("ab").data) 5 []).1 (by decide),
   (short_truncation_spec (List.replicate 401 'a') 400 []).2.1
     (by norm_num [List.length_replicate])⟩

theorem exitSpec_ne_two (fetch : FetchOutcome) : exitSpec fetch ≠ some 2 := by
  cases fetch with
  | exc msg => simp [exitSpec]
  | resp status json text =>
    by_cases h200 : status = 200
    · subst h200
      cases json with
      | none => simp [exitSpec]
      | some data =>
        cases data with
        | pdict kvs =>
          by_cases hc : entriesCrashOf kvs = true
          · simp [exitSpec, hc]
          · simp [exitSpec, Bool.eq_false_iff.mpr hc]
        | pnone => simp [exitSpec]
        | pbool b => simp [exitSpec]
        | pint n => simp [exitSpec]
        | pstr s => simp [exitSpec]
        | plist xs => simp [exitSpec]
    · by_cases h4 : status = 401 ∨ status = 403
      · simp [exitSpec, h200, h4]
      · simp [exitSpec, h200, h4]

/-- C2, counterexample: an HTTP 200 response whose body parses as JSON but to
a non-object value (here the empty JSON array) makes `data.get` raise an
uncaught AttributeError — the run crashes rather than returning exit code 0,
although the credential is present and the status is 200. -/
theorem runCheck_nondict_200_crashes :
    exitCodeOf (runCheck (some (("k").data))
      (.resp 200 (some (.plist [])) (("[]").data))) = none ∧
    exitCodeOf (runCheck (some (("k").data))
      (.resp 200 (some (.plist [])) (("[]").data))) ≠ some 0 :=
  ⟨rfl, by decide⟩

/-- C2, amended: with a credential present the exit code of the Key Validator
is fully determined by the outcome classification — 3 when the request raises
before a response arrives, 4 on HTTP 401 or 403, 5 on any other non-200
status, and 0 on HTTP 200 when the body fails to parse or parses to a JSON
object whose selected model entries all display without error; the remaining
200 runs (body parsing to a non-object, or a model entry whose display name
makes the truncation helper raise) end in an uncaught exception instead of a
classified code.  Exit code 2 is never produced with a credential present,
and is produced when the credential is missing. -/
theorem runCheck_exit_code_classification (key : List Char) (hk : key ≠ [])
    (fetch : FetchOutcome) :
    exitCodeOf (runCheck (some key) fetch) = exitSpec fetch ∧
    exitSpec fetch ≠ some 2 ∧
    exitCodeOf (runCheck none fetch) = some 2 :=
  ⟨runCheck_exitSpec key hk fetch, exitSpec_ne_two fetch, rfl⟩

/-- C2, witness: the classification at a concrete transport failure — the
exit code is 3 — and at a missing credential — the exit code is 2. -/
theorem runCheck_exit_code_classification_witness :
    exitCodeOf (runCheck (some (("k").data)) (.exc [])) = exitSpec (.exc []) ∧
    exitCodeOf (runCheck none (.exc [])) = some 2 :=
  ⟨(runCheck_exit_code_classification (("k").data) (by decide) (.exc [])).1,
   (runCheck_exit_code_classification (("k").data) (by decide) (.exc [])).2.2⟩

/-- C8: with the credential absent, both tools print the missing-credential
message and return exit code 2 with no network GET, no fallback POST and no
SDK call attempt in the trace — the check precedes all other work. -/
theorem missing_credential_exits_2_no_network (fetch : FetchOutcome)
    (model prompt : List Char) (sdk : SdkEnv) (post : PostOutcome) :
    runCheck none fetch = .exit [.print checkMissingLine] 2 ∧
    (traceOf (runCheck none fetch)).countP isGet = 0 ∧
    runGenerate none model prompt sdk post = ⟨[.print genMissingLine], 2⟩ ∧
    (runGenerate none model prompt sdk post).trace.countP isPost = 0 ∧
    (runGenerate none model prompt sdk post).trace.countP isAttempt = 0 :=
  ⟨rfl, rfl, rfl, rfl, rfl⟩

/-- C10: the Key Validator writes the full credential verbatim to standard
output as part of the printed request URL: the third pre-network line is a
constant head followed by the credential itself, the trace of every run with
a nonempty credential starts with those printed lines followed by the GET,
and two runs that differ only in the credential print different pre-network
output. -/
theorem runCheck_prints_credential_in_url (key key2 : List Char) (hk : key ≠ [])
    (hk2 : key2 ≠ []) (hne : key ≠ key2) (fetch : FetchOutcome) :
    requestingLine key = (requestHead ++ endpointBase) ++ key ∧
    (∃ t, traceOf (runCheck (some key) fetch) =
      (preNetworkPrints key).map Event.print ++ Event.httpGet (endpointOf key) :: t) ∧
    preNetworkPrints key ≠ preNetworkPrints key2 := by
  refine ⟨by simp [requestingLine, endpointOf, List.append_assoc], ?_, ?_⟩
  · obtain ⟨t, ht⟩ := runCheck_trace_pre key hk fetch
    exact ⟨t, by simpa [preTrace, preNetworkPrints] using ht⟩
  · intro hpre
    apply hne
    have h3 : requestingLine key = requestingLine key2 := by
      have := congrArg (fun l => l.getLast?) hpre
      simpa [preNetworkPrints] using this
    have h4 : (requestHead ++ endpointBase) ++ key = (requestHead ++ endpointBase) ++ key2 := by
      simpa [requestingLine, endpointOf, List.append_assoc] using h3
    exact List.append_cancel_left h4

/-- C10, witness: the leak facts at two concrete distinct credentials. -/
theorem runCheck_prints_credential_in_url_witness :
    requestingLine (("a").data) = (requestHead ++ endpointBase) ++ (("a").data) ∧
    preNetworkPrints (("a").data) ≠ preNetworkPrints (("b").data) :=
  ⟨(runCheck_prints_credential_in_url (("a").data) (("b").data) (by decide) (by decide)
      (by decide) (.exc [])).1,
   (runCheck_prints_credential_in_url (("a").data) (("b").data) (by decide) (by decide)
      (by decide) (.exc [])).2.2⟩

/-- C5: a nonempty credential starting with neither recognized prefix gets
the unknown-format heuristic line, the network GET still appears in the
trace, and the heuristic never short-circuits or alters the outcome: for
every nonempty credential the GET is issued, and the exit code of the run
is the same as for any other credential under the same fetch outcome. -/
theorem runCheck_unknown_format_still_requests (key : List Char) (hk : key ≠ [])
    (h1 : pyStartsWith key ((("AIza").data)) = false)
    (h2 : pyStartsWith key ((("sk-").data)) = false) (fetch : FetchOutcome) :
    heuristicLine key = unknownHeurLine ∧
    Event.print unknownHeurLine ∈ traceOf (runCheck (some key) fetch) ∧
    (∀ key2, key2 ≠ [] →
      Event.httpGet (endpointOf key2) ∈ traceOf (runCheck (some key2) fetch) ∧
      exitCodeOf (runCheck (some key2) fetch) = exitCodeOf (runCheck (some key) fetch)) := by
  have hl : heuristicLine key = unknownHeurLine := by
    simp [heuristicLine, h1, h2]
  refine ⟨hl, ?_, ?_⟩
  · obtain ⟨t, ht⟩ := runCheck_trace_pre key hk fetch
    rw [ht]
    apply List.mem_append_left
    rw [← hl]
    simp [preTrace]
  · intro key2 hk2
    constructor
    · obtain ⟨t, ht⟩ := runCheck_trace_pre key2 hk2 fetch
      rw [ht]
      apply List.mem_append_left
      simp [preTrace]
    · rw [runCheck_exitSpec key hk fetch, runCheck_exitSpec key2 hk2 fetch]

/-- C5, witness: the unknown-format facts at a concrete credential. -/
theorem runCheck_unknown_format_still_requests_witness :
    heuristicLine (("zzz").data) = unknownHeurLine ∧
    Event.print unknownHeurLine ∈ traceOf (runCheck (some (("zzz").data)) (.exc [])) :=
  ⟨(runCheck_unknown_format_still_requests (("zzz").data) (by decide) (by decide)
      (by decide) (.exc [])).1,
   (runCheck_unknown_format_still_requests (("zzz").data) (by decide) (by decide)
      (by decide) (.exc [])).2.1⟩

/-- C6: every SDK-path failure (library absent, shape unrecognized, call
raised) yields a reason string, control falls through to the single fallback
POST (exactly one POST and exactly one SDK attempt in the trace), and the
exit code is 0 whenever the fallback returns any response — whatever its
body — and 3 exactly when the fallback call itself raises. -/
theorem runGenerate_sdk_failure_falls_back (key model prompt : List Char) (hk : key ≠ [])
    (sdk : SdkEnv) (hs : isSdkFailure sdk = true) (post : PostOutcome) :
    (tryGenaiLibrary sdk).2.isSome = true ∧
    GEvent.httpPost (postUrl model key) ∈ (runGenerate (some key) model prompt sdk post).trace ∧
    (runGenerate (some key) model prompt sdk post).trace.countP isPost = 1 ∧
    (runGenerate (some key) model prompt sdk post).trace.countP isAttempt = 1 ∧
    (runGenerate (some key) model prompt sdk post).code =
      (match post with | .raises _ => 3 | .resp _ _ => 0) := by
  have he : key.isEmpty = false := neNil_isEmpty_false key hk
  cases sdk with
  | notInstalled =>
    cases post with
    | raises msg =>
      refine ⟨rfl, ?_, ?_, ?_, ?_⟩ <;>
        simp [runGenerate, he, tryGenaiLibrary, isPost, isAttempt]
    | resp j t =>
      refine ⟨rfl, ?_, ?_, ?_, ?_⟩ <;>
        simp [runGenerate, he, tryGenaiLibrary, isPost, isAttempt]
  | noShape =>
    cases post with
    | raises msg =>
      refine ⟨rfl, ?_, ?_, ?_, ?_⟩ <;>
        simp [runGenerate, he, tryGenaiLibrary, isPost, isAttempt]
    | resp j t =>
      refine ⟨rfl, ?_, ?_, ?_, ?_⟩ <;>
        simp [runGenerate, he, tryGenaiLibrary, isPost, isAttempt]
  | raises m =>
    cases post with
    | raises msg =>
      refine ⟨rfl, ?_, ?_, ?_, ?_⟩ <;>
        simp [runGenerate, he, tryGenaiLibrary, isPost, isAttempt]
    | resp j t =>
      refine ⟨rfl, ?_, ?_, ?_, ?_⟩ <;>
        simp [runGenerate, he, tryGenaiLibrary, isPost, isAttempt]
  | clientShape r => exact absurd hs (by simp [isSdkFailure])
  | textShape r => exact absurd hs (by simp [isSdkFailure])

/-- C6, witness: with the library not installed, a reason is produced, and a
successful fallback response gives exit code 0. -/
theorem runGenerate_sdk_failure_falls_back_witness :
    (tryGenaiLibrary .notInstalled).2.isSome = true ∧
    (runGenerate (some (("k").data)) (("m").data) (("p").data) .notInstalled
      (.resp none (("ok").data))).code = 0 :=
  ⟨(runGenerate_sdk_failure_falls_back (("k").data) (("m").data) (("p").data) (by decide)
      .notInstalled rfl (.resp none (("ok").data))).1,
   (runGenerate_sdk_failure_falls_back (("k").data) (("m").data) (("p").data) (by decide)
      .notInstalled rfl (.resp none (("ok").data))).2.2.2.2⟩

/-- C7, counterexample: the claim says a present `.text` attribute always
wins, but on a response whose `text` attribute is present and bound to the
empty string the extraction skips it (the chain tests truthiness, not
presence) and returns the `response` attribute instead. -/
theorem extractResp_falsy_text_skipped :
    rgetattr (.obj [((("text").data), .pstr []), ((("response").data), .pstr ['r'])])
      (("text").data) = some (.pstr []) ∧
    extractResp (.obj [((("text").data), .pstr []), ((("response").data), .pstr ['r'])])
      = .pv (.pstr ['r']) ∧
    GenResult.pv (.pstr ['r']) ≠ .pv (.pstr []) :=
  ⟨rfl, rfl, by simp⟩

/-- C7, amended: the extraction takes the `.text` attribute when it is
present and truthy; otherwise it takes the `.response` attribute whenever
that attribute is present (even bound to a falsy value); otherwise the raw
returned object, in that order. -/
theorem extractResp_truthiness_order (r : RespObj) :
    (∀ v, rgetattr r (("text").data) = some v → v.truthy = true →
      extractResp r = .pv v) ∧
    (((rgetattr r (("text").data)).getD .pnone).truthy = false →
      ∀ w, rgetattr r (("response").data) = some w → extractResp r = .pv w) ∧
    (((rgetattr r (("text").data)).getD .pnone).truthy = false →
      rgetattr r (("response").data) = none → extractResp r = rawResult r) := by
  refine ⟨?_, ?_, ?_⟩
  · intro v hv htr
    simp [extractResp, hv, htr]
  · intro hf w hw
    simp [extractResp, hf, hw]
  · intro hf hw
    simp [extractResp, hf, hw]

/-- C7, witness: the three extraction clauses at concrete responses — a
truthy text attribute wins; a falsy text with a present (falsy) response
yields the response value; no attributes at all yield the raw value. -/
theorem extractResp_truthiness_order_witness :
    extractResp (.obj [((("text").data), .pstr ['t'])]) = .pv (.pstr ['t']) ∧
    extractResp (.obj [((("text").data), .pstr []), ((("response").data), .pstr [])])
      = .pv (.pstr []) ∧
    extractResp (.plain .pnone) = rawResult (.plain .pnone) :=
  ⟨(extractResp_truthiness_order
      (.obj [((("text").data), .pstr ['t'])])).1 (.pstr ['t']) rfl rfl,
   (extractResp_truthiness_order
      (.obj [((("text").data), .pstr []), ((("response").data), .pstr [])])).2.1
     rfl (.pstr []) rfl,
   (extractResp_truthiness_order (.plain .pnone)).2.2 rfl rfl⟩

theorem heuristicLine_cases (key : List Char) :
    heuristicLine key = googleHeurLine ∨ heuristicLine key = openaiHeurLine ∨
    heuristicLine key = unknownHeurLine := by
  unfold heuristicLine
  by_cases h1 : pyStartsWith key ((("AIza").data)) = true
  · simp [h1]
  · by_cases h2 : pyStartsWith key ((("sk-").data)) = true
    · simp [Bool.eq_false_iff.mpr h1, h2]
    · simp [Bool.eq_false_iff.mpr h1, Bool.eq_false_iff.mpr h2]

theorem entryLinesLoop_shape (l : List PyVal) :
    ∀ x ∈ (entryLinesLoop l).1, ∃ y, x = (("  - ").data) ++ y := by
  induction l with
  | nil => intro x hx; simp [entryLinesLoop] at hx
  | cons m ms ih =>
    intro x hx
    unfold entryLinesLoop at hx
    cases hs : shortPy (modelNameVal m) 200 with
    | error e => rw [hs] at hx; simp at hx
    | ok v =>
      rw [hs] at hx
      simp only [List.mem_cons] at hx
      rcases hx with h1 | h2
      · exact ⟨pyStr v, h1⟩
      · exact ih x h2

theorem runCheck_200_list_trace (key : List Char) (hk : key ≠ [])
    (kvs : List (List Char × PyVal)) (ms : List PyVal) (text : List Char)
    (hml : modelsLookup kvs = .plist ms) :
    traceOf (runCheck (some key) (.resp 200 (some (.pdict kvs)) text)) =
      preTrace key ++ Event.print (statusHead ++ (toString 200).data) ::
        Event.print (validCountLine ms.length) ::
          (entryLinesLoop (ms.take 10)).1.map Event.print := by
  rw [runCheck_200_list key hk kvs ms text hml]
  by_cases hc : (entryLinesLoop (ms.take 10)).2 = true
  · simp [hc, traceOf]
  · simp [Bool.eq_false_iff.mpr hc, traceOf]

theorem respHeader_ne_pre (key : List Char) :
    ∀ e ∈ preTrace key, e ≠ Event.print respHeaderLine := by
  intro e he
  simp only [preTrace, List.mem_cons, List.not_mem_nil, or_false] at he
  rcases he with h | h | h | h
  · subst h; intro hc
    have := Event.print.inj hc
    exact absurd this (by decide)
  · subst h; intro hc
    have h2 := Event.print.inj hc
    rcases heuristicLine_cases key with h3 | h3 | h3 <;> rw [h3] at h2 <;>
      exact absurd h2 (by decide)
  · subst h; intro hc
    have h2 := Event.print.inj hc
    exact append_ne_of_take_ne requestHead (endpointOf key) respHeaderLine 3
      (by decide) (by decide) h2
  · subst h; intro hc; exact Event.noConfusion hc

theorem statusLine_ne_respHeader :
    ∀ d : List Char, statusHead ++ d ≠ respHeaderLine := fun d =>
  append_ne_of_take_ne statusHead d respHeaderLine 3 (by decide) (by decide)

theorem validCountLine_ne_respHeader (n : Nat) : validCountLine n ≠ respHeaderLine := by
  unfold validCountLine
  rw [List.append_assoc]
  exact append_ne_of_take_ne validHead ((toString n).data ++ validTail) respHeaderLine
    20 (by decide) (by decide)

theorem respHeader_notin_list_trace (key : List Char) (hk : key ≠ [])
    (kvs : List (List Char × PyVal)) (ms : List PyVal) (text : List Char)
    (hml : modelsLookup kvs = .plist ms) :
    Event.print respHeaderLine ∉
      traceOf (runCheck (some key) (.resp 200 (some (.pdict kvs)) text)) := by
  rw [runCheck_200_list_trace key hk kvs ms text hml]
  intro hmem
  rcases List.mem_append.mp hmem with hpre | hrest
  · exact respHeader_ne_pre key _ hpre rfl
  · rcases List.mem_cons.mp hrest with h | hrest2
    · exact statusLine_ne_respHeader (toString 200).data (Event.print.inj h).symm
    · rcases List.mem_cons.mp hrest2 with h | hrest3
      · exact validCountLine_ne_respHeader ms.length (Event.print.inj h).symm
      · rcases List.mem_map.mp hrest3 with ⟨l, hl, hpe⟩
        obtain ⟨y, hy⟩ := entryLinesLoop_shape (ms.take 10) l hl
        have h2 := Event.print.inj hpe
        rw [hy] at h2
        exact append_ne_of_take_ne (("  - ").data) y respHeaderLine 4
          (by decide) (by decide) h2

theorem runCheck_200_list_count (key : List Char) (hk : key ≠ [])
    (kvs : List (List Char × PyVal)) (ms : List PyVal) (text : List Char)
    (hml : modelsLookup kvs = .plist ms)
    (hok : ∀ m ∈ ms.take 10, entryLineOk m = true) :
    entryLineCount (runCheck (some key) (.resp 200 (some (.pdict kvs)) text)) =
      min ms.length 10 ∧
    exitCodeOf (runCheck (some key) (.resp 200 (some (.pdict kvs)) text)) = some 0 := by
  have hloop := entryLinesLoop_ok (ms.take 10) hok
  constructor
  · unfold entryLineCount
    rw [runCheck_200_list_trace key hk kvs ms text hml]
    rw [List.countP_append, preTrace_no_entry, List.countP_cons, List.countP_cons]
    rw [show isEntryLine (.print (statusHead ++ (toString 200).data)) = false from
      isEntryLine_head_append statusHead _ (by decide) (by decide)]
    have hcl : isEntryLine (.print (validCountLine ms.length)) = false := by
      unfold validCountLine
      rw [List.append_assoc]
      exact isEntryLine_head_append validHead _ (by decide) (by decide)
    rw [hcl]
    rw [hloop]
    have hall : ∀ e ∈ ((ms.take 10).map
        (fun m => (("  - ").data ++ pyStr (entryVal m)))).map Event.print,
        isEntryLine e = true := by
      intro e he
      rcases List.mem_map.mp he with ⟨l, hl, hpe⟩
      rcases List.mem_map.mp hl with ⟨m, hm, hlm⟩
      rw [← hpe, ← hlm]
      exact isEntryLine_entry (pyStr (entryVal m))
    rw [List.countP_eq_length.mpr hall]
    simp [List.length_take, Nat.min_comm]
  · rw [runCheck_200_list key hk kvs ms text hml]
    rw [hloop]
    simp [exitCodeOf]

/-- C3, counterexample: the claim says the first field name present in the
body wins whatever its value, but on a body where the field "models" is
present and bound to the empty list the chain skips it, consults "model" and
selects that later field's value instead. -/
theorem modelsLookup_skips_falsy_models_field :
    dictGet [((("models").data), PyVal.plist []),
      ((("model").data), PyVal.plist [PyVal.pstr ['x']])] (("models").data)
      = PyVal.plist [] ∧
    modelsLookup [((("models").data), PyVal.plist []),
      ((("model").data), PyVal.plist [PyVal.pstr ['x']])]
      = PyVal.plist [PyVal.pstr ['x']] ∧
    PyVal.plist [PyVal.pstr ['x']] ≠ PyVal.plist [] :=
  ⟨rfl, rfl, by simp⟩

/-- C3, amended: the probe order over a parsed JSON-object body is "models",
"model", "availableModels", chaining on truthiness: the first field whose
value is truthy wins, a field that is present but falsy is skipped, and when
the first two lookups are falsy the chain's value is the "availableModels"
lookup; the success-with-list branch (rather than the raw-body branch) is
taken exactly when the resulting value is a list. -/
theorem modelsLookup_truthy_priority (kvs : List (List Char × PyVal)) :
    ((dictGet kvs (("models").data)).truthy = true →
      modelsLookup kvs = dictGet kvs (("models").data)) ∧
    ((dictGet kvs (("models").data)).truthy = false →
      (dictGet kvs (("model").data)).truthy = true →
      modelsLookup kvs = dictGet kvs (("model").data)) ∧
    ((dictGet kvs (("models").data)).truthy = false →
      (dictGet kvs (("model").data)).truthy = false →
      modelsLookup kvs = dictGet kvs (("availableModels").data)) ∧
    (∀ key text, key ≠ [] →
      ((∃ ms, modelsLookup kvs = PyVal.plist ms) ↔
        Event.print respHeaderLine ∉
          traceOf (runCheck (some key) (.resp 200 (some (.pdict kvs)) text)))) := by
  refine ⟨?_, ?_, ?_, ?_⟩
  · intro h; simp [modelsLookup, pyOr, h]
  · intro h1 h2; simp [modelsLookup, pyOr, h1, h2]
  · intro h1 h2; simp [modelsLookup, pyOr, h1, h2]
  · intro key text hk
    constructor
    · rintro ⟨ms, hml⟩
      exact respHeader_notin_list_trace key hk kvs ms text hml
    · intro hnot
      by_contra hnol
      push_neg at hnol
      apply hnot
      rw [runCheck_200_nonlist key hk kvs text hnol]
      simp [traceOf]

/-- C3, witness: the truthy-priority clauses and the branch criterion at
concrete bodies — a truthy "models" field wins, and a body whose chain value
is a list avoids the raw-body branch. -/
theorem modelsLookup_truthy_priority_witness :
    modelsLookup [((("models").data), PyVal.plist [PyVal.pstr ['a']])]
      = dictGet [((("models").data), PyVal.plist [PyVal.pstr ['a']])] (("models").data) ∧
    Event.print respHeaderLine ∉
      traceOf (runCheck (some (("k").data)) (.resp 200
        (some (.pdict [((("models").data), PyVal.plist [PyVal.pstr ['a']])]))
        (("t").data))) :=
  ⟨(modelsLookup_truthy_priority [((("models").data), PyVal.plist [PyVal.pstr ['a']])]).1
     rfl,
   ((modelsLookup_truthy_priority [((("models").data), PyVal.plist [PyVal.pstr ['a']])]).2.2.2
     (("k").data) (("t").data) (by decide)).mp
     (Exists.intro [PyVal.pstr ['a']] rfl)⟩

/-- C4, counterexample: the claim says a 200 body mapping "models" to a
one-entry list always prints one entry line and exits 0, but an entry whose
"name" field is a (truthy) number makes the truncation helper raise a
TypeError: no entry line is printed and the run crashes instead of exiting
0. -/
theorem runCheck_nonstring_name_crashes :
    entryLineCount (runCheck (some (("k").data)) (.resp 200
      (some (.pdict [((("models").data), .plist [.pdict [((("name").data), .pint 1)]])]))
      (("b").data))) = 0 ∧
    exitCodeOf (runCheck (some (("k").data)) (.resp 200
      (some (.pdict [((("models").data), .plist [.pdict [((("name").data), .pint 1)]])]))
      (("b").data))) = none := by
  exact ⟨by decide, rfl⟩

/-- C4, amended: for a 200 response whose parsed body maps "models" to a
nonempty list of N entries, provided each of the first min(N, 10) entries
displays without raising (its selected name value — "name" else "model" else
str(m), chained on truthiness — survives `short`), the validator prints
exactly min(N, 10) entry lines and returns exit code 0; an entry whose
selected name value makes `short` raise aborts the run instead. -/
theorem runCheck_models_list_prints_min (key : List Char) (hk : key ≠ [])
    (kvs : List (List Char × PyVal)) (ms : List PyVal) (text : List Char)
    (hm : dictGet kvs (("models").data) = .plist ms) (hne : ms ≠ [])
    (hok : ∀ m ∈ ms.take 10, entryLineOk m = true) :
    exitCodeOf (runCheck (some key) (.resp 200 (some (.pdict kvs)) text)) = some 0 ∧
    entryLineCount (runCheck (some key) (.resp 200 (some (.pdict kvs)) text)) =
      min ms.length 10 := by
  have hml : modelsLookup kvs = .plist ms := by
    have ht : (PyVal.plist ms).truthy = true := by
      simp [PyVal.truthy, hne]
    simp [modelsLookup, hm, pyOr, ht]
  have h := runCheck_200_list_count key hk kvs ms text hml hok
  exact ⟨h.2, h.1⟩

/-- C4, witness: a two-entry models list prints exactly two entry lines and
exits 0. -/
theorem runCheck_models_list_prints_min_witness :
    exitCodeOf (runCheck (some (("k").data)) (.resp 200
      (some (.pdict [((("models").data),
        .plist [.pstr ['m', '1'], .pstr ['m', '2']])])) (("t").data))) = some 0 ∧
    entryLineCount (runCheck (some (("k").data)) (.resp 200
      (some (.pdict [((("models").data),
        .plist [.pstr ['m', '1'], .pstr ['m', '2']])])) (("t").data))) =
      min ([PyVal.pstr ['m', '1'], PyVal.pstr ['m', '2']]).length 10 :=
  runCheck_models_list_prints_min (("k").data) (by decide)
    [((("models").data), .plist [.pstr ['m', '1'], .pstr ['m', '2']])]
    [PyVal.pstr ['m', '1'], PyVal.pstr ['m', '2']] (("t").data) rfl (by simp)
    (by decide)

/-- C9, counterexample: the claim says that with "models" falsy and no truthy
later field the validator takes the raw-body branch and never prints a
zero-count success line, but a body whose "availableModels" field is the
empty list ends the chain on that list: the run prints the "0 model(s)
returned" line, does not take the raw-body branch, and still exits 0. -/
theorem runCheck_empty_availableModels_lists :
    Event.print (validCountLine 0) ∈ traceOf (runCheck (some (("k").data))
      (.resp 200 (some (.pdict [((("availableModels").data), .plist [])]))
        (("t").data))) ∧
    Event.print respHeaderLine ∉ traceOf (runCheck (some (("k").data))
      (.resp 200 (some (.pdict [((("availableModels").data), .plist [])]))
        (("t").data))) ∧
    exitCodeOf (runCheck (some (("k").data))
      (.resp 200 (some (.pdict [((("availableModels").data), .plist [])]))
        (("t").data))) = some 0 :=
  ⟨by decide, by decide, rfl⟩

/-- C9, amended: on a 200 JSON-object body whose three probed fields are all
falsy, the chain's value is the "availableModels" lookup result; if that
value is a list (necessarily the empty list) the success-with-list branch
prints the "0 model(s) returned" line, otherwise the raw-body branch is
taken; either way the exit code is 0. -/
theorem runCheck_all_falsy_chain (key : List Char) (hk : key ≠ [])
    (kvs : List (List Char × PyVal)) (text : List Char)
    (h1 : (dictGet kvs (("models").data)).truthy = false)
    (h2 : (dictGet kvs (("model").data)).truthy = false)
    (h3 : (dictGet kvs (("availableModels").data)).truthy = false) :
    modelsLookup kvs = dictGet kvs (("availableModels").data) ∧
    (dictGet kvs (("availableModels").data) = .plist [] →
      Event.print (validCountLine 0) ∈
        traceOf (runCheck (some key) (.resp 200 (some (.pdict kvs)) text))) ∧
    ((∀ ms, dictGet kvs (("availableModels").data) ≠ PyVal.plist ms) →
      Event.print respHeaderLine ∈
        traceOf (runCheck (some key) (.resp 200 (some (.pdict kvs)) text))) ∧
    exitCodeOf (runCheck (some key) (.resp 200 (some (.pdict kvs)) text)) = some 0 := by
  have hml : modelsLookup kvs = dictGet kvs (("availableModels").data) := by
    simp [modelsLookup, pyOr, h1, h2]
  refine ⟨hml, ?_, ?_, ?_⟩
  · intro hav
    have hml0 : modelsLookup kvs = PyVal.plist [] := hml.trans hav
    rw [runCheck_200_list_trace key hk kvs [] text hml0]
    simp [entryLinesLoop]
  · intro hnl
    have hml2 : ∀ ms, modelsLookup kvs ≠ PyVal.plist ms := fun ms hc =>
      hnl ms (hml.symm.trans hc)
    rw [runCheck_200_nonlist key hk kvs text hml2]
    simp [traceOf]
  · cases hav : dictGet kvs (("availableModels").data) with
    | plist ms =>
      have hms : ms = [] := by
        rw [hav] at h3
        simpa [PyVal.truthy] using h3
      subst hms
      exact (runCheck_200_list_count key hk kvs [] text (hml.trans hav)
        (by intro m hm; simp at hm)).2
    | pnone =>
      rw [runCheck_200_nonlist key hk kvs text (fun ms hc =>
        PyVal.noConfusion ((hml.trans hav).symm.trans hc))]
      rfl
    | pbool b =>
      rw [runCheck_200_nonlist key hk kvs text (fun ms hc =>
        PyVal.noConfusion ((hml.trans hav).symm.trans hc))]
      rfl
    | pint n =>
      rw [runCheck_200_nonlist key hk kvs text (fun ms hc =>
        PyVal.noConfusion ((hml.trans hav).symm.trans hc))]
      rfl
    | pstr s =>
      rw [runCheck_200_nonlist key hk kvs text (fun ms hc =>
        PyVal.noConfusion ((hml.trans hav).symm.trans hc))]
      rfl
    | pdict kvs2 =>
      rw [runCheck_200_nonlist key hk kvs text (fun ms hc =>
        PyVal.noConfusion ((hml.trans hav).symm.trans hc))]
      rfl

/-- C9, witness: on the concrete body binding "availableModels" to the empty
list, the chain ends on that lookup and the zero-count line is printed. -/
theorem runCheck_all_falsy_chain_witness :
    modelsLookup [((("availableModels").data), PyVal.plist [])]
      = dictGet [((("availableModels").data), PyVal.plist [])]
          (("availableModels").data) ∧
    Event.print (validCountLine 0) ∈ traceOf (runCheck (some (("q").data))
      (.resp 200 (some (.pdict [((("availableModels").data), PyVal.plist [])]))
        (("t").data))) :=
  ⟨(runCheck_all_falsy_chain (("q").data) (by decide)
      [((("availableModels").data), PyVal.plist [])] (("t").data) rfl rfl rfl).1,
   (runCheck_all_falsy_chain (("q").data) (by decide)
      [((("availableModels").data), PyVal.plist [])] (("t").data) rfl rfl rfl).2.1 rfl⟩

end Gemini
